import Mathlib

/-!
# ble-test: a BLE peripheral bootstrap (`main.go`)

The program derives two identifiers (a fixed service UUID and a device name suffix taken from
the first hardware address of the host), drives a Bluetooth adapter through
`Enable`, `AddService`, `DefaultAdvertisement`, `Configure`, `Start`, and then idles until a
signal handler goroutine ends the process.

The development has four layers:

* the library functions `main.go` calls (`crypto/md5`, `crypto/sha1`, `encoding/hex`,
  `net.HardwareAddr.String`, `github.com/google/uuid`, `tinygo.org/x/bluetooth`);
* the three functions of `main.go`: `mustGetMacAddr`, `main`, `handleSignals`; each returns the
  list of observable events it performs and the way it ends;
* the process: the two goroutines of `main.go` interleaved by an arbitrary schedule;
* the theorems.

Conventions: a Go `byte` or `uint32` is a `Nat` reduced with `%`; a Go `string` is a `String`
(every string that is sliced or measured here is ASCII, so bytes and characters coincide); a Go
`error` is an `Option String` (`none` is `nil`); a panic is `Except.error`.
-/

namespace BleTest

/-! ## Machine words and byte order -/

/-- Rotate the 32-bit word `x` left by `n` bits (`bits.RotateLeft32`). -/
def rotl32 (x n : Nat) : Nat := ((x <<< n) ||| (x >>> (32 - n))) % 2 ^ 32

/-- Bitwise complement of a 32-bit word (`^x` on a `uint32`). -/
def not32 (x : Nat) : Nat := x ^^^ 0xffffffff

/-- The `j`-th little-endian 32-bit word of a byte string (`binary.LittleEndian.Uint32`). -/
def leWord (b : List Nat) (j : Nat) : Nat :=
  b.getD (4 * j) 0 + b.getD (4 * j + 1) 0 * 2 ^ 8 + b.getD (4 * j + 2) 0 * 2 ^ 16
    + b.getD (4 * j + 3) 0 * 2 ^ 24

/-- The `j`-th big-endian 32-bit word of a byte string (`binary.BigEndian.Uint32`). -/
def beWord (b : List Nat) (j : Nat) : Nat :=
  b.getD (4 * j) 0 * 2 ^ 24 + b.getD (4 * j + 1) 0 * 2 ^ 16 + b.getD (4 * j + 2) 0 * 2 ^ 8
    + b.getD (4 * j + 3) 0

/-- The `n` low bytes of `w`, least significant first. -/
def leBytes (n w : Nat) : List Nat := (List.range n).map (fun i => (w >>> (8 * i)) % 256)

/-- The `n` low bytes of `w`, most significant first. -/
def beBytes (n w : Nat) : List Nat := (leBytes n w).reverse

/-- Number of zero bytes of padding after the `0x80` byte, for a message of `len` bytes, so that
the padded message followed by its 8 length bytes is a whole number of 64-byte blocks. -/
def padZeros (len : Nat) : Nat := (119 - len % 64) % 64

/-- The bytes of a Go string (`[]byte(s)`): its UTF-8 encoding. -/
def bytesOf (s : String) : List Nat := s.toUTF8.data.toList.map UInt8.toNat

/-- The Go slice expression `s[:n]` on a string: `none` is the run-time panic
`slice bounds out of range`. -/
def sliceTo (s : String) (n : Nat) : Option String :=
  if n ≤ s.length then some ⟨s.data.take n⟩ else none

/-! ## `crypto/md5` -/

/-- Modelled from the spec: the hash behind `MD5Hash` (`crypto/md5`, called through
`uuid.NewMD5`) is not under src/; this is the sine table of RFC 1321. -/
def md5K : List Nat :=
  [0xd76aa478, 0xe8c7b756, 0x242070db, 0xc1bdceee, 0xf57c0faf, 0x4787c62a, 0xa8304613, 0xfd469501,
   0x698098d8, 0x8b44f7af, 0xffff5bb1, 0x895cd7be, 0x6b901122, 0xfd987193, 0xa679438e, 0x49b40821,
   0xf61e2562, 0xc040b340, 0x265e5a51, 0xe9b6c7aa, 0xd62f105d, 0x02441453, 0xd8a1e681, 0xe7d3fbc8,
   0x21e1cde6, 0xc33707d6, 0xf4d50d87, 0x455a14ed, 0xa9e3e905, 0xfcefa3f8, 0x676f02d9, 0x8d2a4c8a,
   0xfffa3942, 0x8771f681, 0x6d9d6122, 0xfde5380c, 0xa4beea44, 0x4bdecfa9, 0xf6bb4b60, 0xbebfbc70,
   0x289b7ec6, 0xeaa127fa, 0xd4ef3085, 0x04881d05, 0xd9d4d039, 0xe6db99e5, 0x1fa27cf8, 0xc4ac5665,
   0xf4292244, 0x432aff97, 0xab9423a7, 0xfc93a039, 0x655b59c3, 0x8f0ccc92, 0xffeff47d, 0x85845dd1,
   0x6fa87e4f, 0xfe2ce6e0, 0xa3014314, 0x4e0811a1, 0xf7537e82, 0xbd3af235, 0x2ad7d2bb, 0xeb86d391]

/-- Modelled from the spec: the per-round rotation amounts of MD5 (RFC 1321); `crypto/md5` is not
under src/. -/
def md5S : List Nat :=
  [7, 12, 17, 22, 7, 12, 17, 22, 7, 12, 17, 22, 7, 12, 17, 22,
   5, 9, 14, 20, 5, 9, 14, 20, 5, 9, 14, 20, 5, 9, 14, 20,
   4, 11, 16, 23, 4, 11, 16, 23, 4, 11, 16, 23, 4, 11, 16, 23,
   6, 10, 15, 21, 6, 10, 15, 21, 6, 10, 15, 21, 6, 10, 15, 21]

/-- The four chaining words of MD5. -/
structure MD5State where
  a : Nat
  b : Nat
  c : Nat
  d : Nat
  deriving DecidableEq, Repr

/-- Modelled from the spec: one of the 64 operations of the MD5 block function (RFC 1321);
`crypto/md5` is not under src/. `M` holds the 16 message words of the block. -/
def md5Step (M : List Nat) (s : MD5State) (i : Nat) : MD5State :=
  let f :=
    if i < 16 then (s.b &&& s.c) ||| (not32 s.b &&& s.d)
    else if i < 32 then (s.d &&& s.b) ||| (not32 s.d &&& s.c)
    else if i < 48 then s.b ^^^ s.c ^^^ s.d
    else s.c ^^^ (s.b ||| not32 s.d)
  let g :=
    if i < 16 then i
    else if i < 32 then (5 * i + 1) % 16
    else if i < 48 then (3 * i + 5) % 16
    else (7 * i) % 16
  let t := (f + s.a + md5K.getD i 0 + M.getD g 0) % 2 ^ 32
  { a := s.d, d := s.c, c := s.b, b := (s.b + rotl32 t (md5S.getD i 0)) % 2 ^ 32 }

/-- Modelled from the spec: the MD5 block function on one 64-byte block; `crypto/md5` is not
under src/. -/
def md5Block (s : MD5State) (blk : List Nat) : MD5State :=
  let M := (List.range 16).map (leWord blk)
  let r := (List.range 64).foldl (md5Step M) s
  { a := (s.a + r.a) % 2 ^ 32, b := (s.b + r.b) % 2 ^ 32,
    c := (s.c + r.c) % 2 ^ 32, d := (s.d + r.d) % 2 ^ 32 }

/-- Modelled from the spec: `md5.Sum`, the 16-byte MD5 digest of a byte string (RFC 1321);
`crypto/md5` is not under src/. -/
def md5Sum (msg : List Nat) : List Nat :=
  let p := msg ++ [0x80] ++ List.replicate (padZeros msg.length) 0 ++ leBytes 8 (8 * msg.length)
  let r := (List.range (p.length / 64)).foldl
    (fun s k => md5Block s ((p.drop (64 * k)).take 64))
    { a := 0x67452301, b := 0xefcdab89, c := 0x98badcfe, d := 0x10325476 }
  leBytes 4 r.a ++ leBytes 4 r.b ++ leBytes 4 r.c ++ leBytes 4 r.d

/-! ## `crypto/sha1` -/

/-- The five chaining words of SHA-1. -/
structure SHA1State where
  a : Nat
  b : Nat
  c : Nat
  d : Nat
  e : Nat
  deriving DecidableEq, Repr

/-- Modelled from the spec: the 80-word message schedule of SHA-1 (RFC 3174); `crypto/sha1`,
called through `uuid.NewSHA1`, is not under src/. -/
def sha1Schedule (blk : List Nat) : List Nat :=
  (List.range 64).foldl
    (fun w k =>
      let i := k + 16
      w ++ [rotl32
        (w.getD (i - 3) 0 ^^^ w.getD (i - 8) 0 ^^^ w.getD (i - 14) 0 ^^^ w.getD (i - 16) 0) 1])
    ((List.range 16).map (beWord blk))

/-- Modelled from the spec: one of the 80 operations of the SHA-1 block function (RFC 3174);
`crypto/sha1` is not under src/. -/
def sha1Step (w : List Nat) (s : SHA1State) (i : Nat) : SHA1State :=
  let f :=
    if i < 20 then (s.b &&& s.c) ||| (not32 s.b &&& s.d)
    else if i < 40 then s.b ^^^ s.c ^^^ s.d
    else if i < 60 then ((s.b ||| s.c) &&& s.d) ||| (s.b &&& s.c)
    else s.b ^^^ s.c ^^^ s.d
  let k :=
    if i < 20 then 0x5A827999
    else if i < 40 then 0x6ED9EBA1
    else if i < 60 then 0x8F1BBCDC
    else 0xCA62C1D6
  let t := (rotl32 s.a 5 + f + s.e + w.getD i 0 + k) % 2 ^ 32
  { a := t, b := s.a, c := rotl32 s.b 30, d := s.c, e := s.d }

/-- Modelled from the spec: the SHA-1 block function on one 64-byte block; `crypto/sha1` is not
under src/. -/
def sha1Block (s : SHA1State) (blk : List Nat) : SHA1State :=
  let w := sha1Schedule blk
  let r := (List.range 80).foldl (sha1Step w) s
  { a := (s.a + r.a) % 2 ^ 32, b := (s.b + r.b) % 2 ^ 32, c := (s.c + r.c) % 2 ^ 32,
    d := (s.d + r.d) % 2 ^ 32, e := (s.e + r.e) % 2 ^ 32 }

/-- Modelled from the spec: `sha1.Sum`, the 20-byte SHA-1 digest of a byte string (RFC 3174);
`crypto/sha1` is not under src/. -/
def sha1Sum (msg : List Nat) : List Nat :=
  let p := msg ++ [0x80] ++ List.replicate (padZeros msg.length) 0 ++ beBytes 8 (8 * msg.length)
  let r := (List.range (p.length / 64)).foldl
    (fun s k => sha1Block s ((p.drop (64 * k)).take 64))
    { a := 0x67452301, b := 0xEFCDAB89, c := 0x98BADCFE, d := 0x10325476, e := 0xC3D2E1F0 }
  beBytes 4 r.a ++ beBytes 4 r.b ++ beBytes 4 r.c ++ beBytes 4 r.d ++ beBytes 4 r.e

/-! ## `encoding/hex` and `net` -/

/-- The digit table shared by `encoding/hex` (`hextable`) and `net` (`hexDigit`). -/
def hextable : String := "0123456789abcdef"

/-- Modelled from the spec: the two characters `hex.Encode` writes for one byte,
`hextable[v>>4]` and `hextable[v&0x0f]`; `encoding/hex` is not under src/. -/
def hexByte (v : Nat) : List Char :=
  [hextable.data.getD (v >>> 4) '?', hextable.data.getD (v &&& 0x0f) '?']

/-- Modelled from the spec: `hex.Encode` on a byte slice; `encoding/hex` is not under src/. -/
def hexEncode (src : List Nat) : List Char := src.flatMap hexByte

/-- Whether `c` is a lower-case hexadecimal digit. -/
def isHexDigit (c : Char) : Bool := hextable.data.contains c

namespace net

/-- The part of `net.Interface` that `main.go` reads: the hardware address, a byte slice. -/
structure Interface where
  HardwareAddr : List Nat
  deriving DecidableEq, Repr

/-- Modelled from the spec: `net.HardwareAddr.String`, the string form of a hardware address:
empty for the empty address, otherwise two hex digits per byte, separated by colons; package
`net` is not under src/. -/
def HardwareAddrString (a : List Nat) : String :=
  ⟨(a.map hexByte).intersperse [':'] |>.flatten⟩

end net

/-! ## `github.com/google/uuid` -/

namespace uuid

/-- A `uuid.UUID` is a `[16]byte`. -/
abbrev UUID := List Nat

/-- The zero UUID `uuid.Nil`. -/
def Nil : UUID := List.replicate 16 0

/-- The constant `uuid.NameSpaceDNS`, `6ba7b810-9dad-11d1-80b4-00c04fd430c8`. -/
def NameSpaceDNS : UUID :=
  [0x6b, 0xa7, 0xb8, 0x10, 0x9d, 0xad, 0x11, 0xd1, 0x80, 0xb4, 0x00, 0xc0, 0x4f, 0xd4, 0x30, 0xc8]

/-- Modelled from the spec: `uuid.NewHash`, the name-based UUID of `data` in namespace `space`
under the hash `h`; the package is not under src/. The digest of `space ++ data` is copied into
the 16 bytes of the array, then the version and variant bits are set. -/
def NewHash (h : List Nat → List Nat) (space : UUID) (data : List Nat) (version : Nat) : UUID :=
  let s := h (space ++ data)
  let u := (List.range 16).map (fun i => s.getD i 0 % 256)
  let u := u.set 6 (((u.getD 6 0 &&& 0x0f) ||| ((version &&& 0xf) <<< 4)) % 256)
  u.set 8 ((u.getD 8 0 &&& 0x3f) ||| 0x80)

/-- The MD5 name-based UUID `uuid.NewMD5(space, data)` (version 3). -/
def NewMD5 (space : UUID) (data : List Nat) : UUID := NewHash md5Sum space data 3

/-- The SHA-1 name-based UUID `uuid.NewSHA1(space, data)` (version 5). -/
def NewSHA1 (space : UUID) (data : List Nat) : UUID := NewHash sha1Sum space data 5

/-- Modelled from the spec: `UUID.String`, the canonical string form
`xxxxxxxx-xxxx-xxxx-xxxx-xxxxxxxxxxxx` of a UUID; the package is not under src/. -/
def String (u : UUID) : String :=
  ⟨hexEncode (u.take 4) ++ ['-'] ++ hexEncode ((u.drop 4).take 2) ++ ['-']
    ++ hexEncode ((u.drop 6).take 2) ++ ['-'] ++ hexEncode ((u.drop 8).take 2) ++ ['-']
    ++ hexEncode (u.drop 10)⟩

end uuid

/-! ## `tinygo.org/x/bluetooth` -/

namespace bluetooth

/-- A `bluetooth.UUID` is a `[4]uint32`, least significant word first. -/
abbrev UUID := List Nat

/-- The data of a `bluetooth.CharacteristicConfig`. -/
structure CharacteristicConfig where
  UUID : UUID
  Value : List Nat
  Flags : Nat
  deriving DecidableEq, Repr

/-- A `bluetooth.Service`: the argument of `AddService`. -/
structure Service where
  UUID : UUID
  Characteristics : List CharacteristicConfig
  deriving DecidableEq, Repr

/-- The fields of `bluetooth.AdvertisementOptions` that `main.go` sets. -/
structure AdvertisementOptions where
  LocalName : String
  ServiceUUIDs : List UUID
  deriving DecidableEq, Repr

/-- The value of a hexadecimal digit, either case. -/
def nibble (c : Char) : Option Nat :=
  if '0' ≤ c ∧ c ≤ '9' then some (c.toNat - '0'.toNat)
  else if 'a' ≤ c ∧ c ≤ 'f' then some (c.toNat - 'a'.toNat + 0xa)
  else if 'A' ≤ c ∧ c ≤ 'F' then some (c.toNat - 'A'.toNat + 0xa)
  else none

/-- The loop of `ParseUUID`: `idx` counts the hex digits read so far, `u` is the UUID being
filled from its most significant nibble. -/
def parseLoop : List Char → Nat → UUID → UUID × Option String
  | [], idx, u => if idx ≠ 32 then (u, some "bluetooth: failed to parse UUID") else (u, none)
  | c :: cs, idx, u =>
    if c = '-' then parseLoop cs idx u
    else
      match nibble c with
      | none => (u, some "bluetooth: failed to parse UUID")
      | some n =>
        if idx > 31 then (u, some "bluetooth: failed to parse UUID")
        else
          parseLoop cs (idx + 1)
            (u.set (3 - idx / 8) ((u.getD (3 - idx / 8) 0 ||| (n <<< (4 * (7 - idx % 8)))) % 2 ^ 32))

/-- Modelled from the spec: `bluetooth.ParseUUID`, which reads the canonical string form of a
UUID into the four words of a `bluetooth.UUID` and reports an error on a malformed string; the
package is not under src/. -/
def ParseUUID (s : String) : UUID × Option String := parseLoop s.data 0 [0, 0, 0, 0]

end bluetooth

/-! ## Observable behaviour -/

/-- What a run of the program does that can be seen from outside: calls into `net` and into the
Bluetooth stack, log lines, receipt of a signal, and cancellation of the shared context. -/
inductive Event
  | netInterfaces
  | Enable
  | AddService (service : bluetooth.Service)
  | DefaultAdvertisement
  | Configure (options : bluetooth.AdvertisementOptions)
  | Start
  | logErr (err msg : String)
  | logInfo (msg : String)
  | sigRecv (sig : Nat)
  | cancel
  deriving DecidableEq, Repr

/-- The operations of the Bluetooth stack. -/
def Event.isAdapterOp : Event → Bool
  | .Enable => true
  | .AddService _ => true
  | .DefaultAdvertisement => true
  | .Configure _ => true
  | .Start => true
  | _ => false

/-- Log lines, of either level. -/
def Event.isLog : Event → Bool
  | .logErr _ _ => true
  | .logInfo _ => true
  | _ => false

/-- How a function of `main.go` ends: it returns, it panics, it calls `os.Exit`, or it blocks
on the context for ever unless the context is cancelled. -/
inductive Outcome
  | returned
  | panicked (value : String)
  | exited (code : Nat)
  | awaitsCancel
  deriving DecidableEq, Repr

/-- The events a function performs, in order, and the way it ends. -/
structure Run where
  trace : List Event
  outcome : Outcome
  deriving DecidableEq, Repr

/-- The exit status of the process when the goroutine that ends it ends with this outcome:
returning from `main` gives 0, `os.Exit(c)` gives `c`, an unrecovered panic gives 2 (the Go
runtime); a goroutine that blocks does not end the process. -/
def Outcome.exitStatus : Outcome → Option Nat
  | .returned => some 0
  | .panicked _ => some 2
  | .exited c => some c
  | .awaitsCancel => none

/-- The environment of one run: what `net.Interfaces()` returns and the error each adapter
operation returns (`none` is `nil`). -/
structure World where
  interfaces : Except String (List net.Interface)
  enable : Option String
  addService : Option String
  configure : Option String
  start : Option String

/-! ## `main.go` -/

/-- The loop of `mustGetMacAddr` over the interfaces. -/
def firstMacAddr : List net.Interface → Except String String
  | [] => .error "no MAC address found."
  | interf :: rest =>
    let a := net.HardwareAddrString interf.HardwareAddr
    if a ≠ "" then .ok a else firstMacAddr rest

/-- The function `mustGetMacAddr`, as a function of the result of `net.Interfaces()`; a panic is
`Except.error` with the panic value. -/
def mustGetMacAddr (interfaces : Except String (List net.Interface)) : Except String String :=
  match interfaces with
  | .error err => .error err
  | .ok interfaces => firstMacAddr interfaces

/-- The `namespaceUUID` of `main`. -/
def namespaceUUID : uuid.UUID := uuid.NewSHA1 uuid.NameSpaceDNS (bytesOf "www.danesparza.net")

/-- The `serviceUUID` of `main`. -/
def serviceUUID : uuid.UUID := uuid.NewSHA1 namespaceUUID (bytesOf "ble-test")

/-- The `localNameSuffix` of `main` for the hardware address string `mac`:
`uuid.NewMD5(uuid.Nil, []byte(mac)).String()[:8]`. -/
def localNameSuffix (mac : String) : Option String :=
  sliceTo (uuid.String (uuid.NewMD5 uuid.Nil (bytesOf mac))) 8

/-- The function `main` up to the point where it blocks on the context, in the world `w`, with
the library function `bluetooth.ParseUUID` as a parameter (its error result is the one `main`
binds to `_`). -/
def main (ParseUUID : String → bluetooth.UUID × Option String) (w : World) : Run :=
  let serviceBleUUID := (ParseUUID (uuid.String serviceUUID)).1
  match mustGetMacAddr w.interfaces with
  | .error v => ⟨[.netInterfaces], .panicked v⟩
  | .ok mac =>
  match localNameSuffix mac with
  | none => ⟨[.netInterfaces], .panicked "slice bounds out of range"⟩
  | some localNameSuffix =>
  match w.enable with
  | some err => ⟨[.netInterfaces, .Enable, .logErr err "problem enabling adapter"], .returned⟩
  | none =>
  let service : bluetooth.Service := { UUID := serviceBleUUID, Characteristics := [] }
  match w.addService with
  | some err =>
    ⟨[.netInterfaces, .Enable, .AddService service, .logErr err "problem adding service"],
      .returned⟩
  | none =>
  let options : bluetooth.AdvertisementOptions :=
    { LocalName := "ApplianceMonitor - " ++ localNameSuffix, ServiceUUIDs := [serviceBleUUID] }
  match w.configure with
  | some err =>
    ⟨[.netInterfaces, .Enable, .AddService service, .DefaultAdvertisement, .Configure options,
        .logErr err "problem configuring advertiser"], .returned⟩
  | none =>
  match w.start with
  | some err =>
    ⟨[.netInterfaces, .Enable, .AddService service, .DefaultAdvertisement, .Configure options,
        .Start, .logErr err "problem starting advertiser"], .returned⟩
  | none =>
    ⟨[.netInterfaces, .Enable, .AddService service, .DefaultAdvertisement, .Configure options,
        .Start, .logInfo "ble test started"], .awaitsCancel⟩

/-- The end of `main`: what it does once `ctx.Done()` is ready. -/
def mainStopped : Run := ⟨[.logInfo "ble test stopped"], .returned⟩

/-- The signal number of `os.Interrupt` (`syscall.SIGINT`). -/
def Interrupt : Nat := 2

/-- The signal number of `syscall.SIGTERM`. -/
def SIGTERM : Nat := 15

/-- The case of the `select` in `handleSignals` that fires. -/
inductive SelectCase
  | ctxDone
  | sig (sig : Nat)
  deriving DecidableEq, Repr

/-- The function `handleSignals`, as a function of the case of its `select` that fires. -/
def handleSignals : SelectCase → Run
  | .ctxDone => ⟨[], .returned⟩
  | .sig sig =>
    ⟨(if sig = Interrupt then [.logInfo "SIGINT"]
      else if sig = SIGTERM then [.logInfo "SIGTERM"]
      else []) ++ [.logInfo "Shutting down ...", .cancel], .exited 0⟩

/-! ## The startup sequence -/

/-- The fallible steps of startup, in program order. -/
inductive Step
  | identity
  | Enable
  | AddService
  | Configure
  | Start
  deriving DecidableEq, Repr

/-- The startup sequence of `main`. -/
def startupSequence : List Step := [.identity, .Enable, .AddService, .Configure, .Start]

/-- The step an event is an attempt of: `net.Interfaces()` is the one call identity derivation
makes, the others are the adapter operations that can fail. -/
def Event.step? : Event → Option Step
  | .netInterfaces => some .identity
  | .Enable => some .Enable
  | .AddService _ => some .AddService
  | .Configure _ => some .Configure
  | .Start => some .Start
  | _ => none

/-- The steps attempted in a trace, in order. -/
def attempted (t : List Event) : List Step := t.filterMap Event.step?

/-- The calls the Bluetooth stack receives in a trace, in order. -/
def adapterCalls (t : List Event) : List Event := t.filter Event.isAdapterOp

/-- Whether a step fails in the world `w`. Identity derivation fails when `mustGetMacAddr`
panics or the slice `[:8]` does; an adapter step fails when it returns an error. -/
def stepFails (w : World) : Step → Bool
  | .identity =>
    match mustGetMacAddr w.interfaces with
    | .error _ => true
    | .ok mac => (localNameSuffix mac).isNone
  | .Enable => w.enable.isSome
  | .AddService => w.addService.isSome
  | .Configure => w.configure.isSome
  | .Start => w.start.isSome

/-! ## The process: two goroutines -/

/-- Where the goroutine started by `go handleSignals(ctx, sigs, cancel)` stands: blocked in its
`select`, running the events of the case that fired, or returned. -/
inductive HandlerPc
  | atSelect
  | running (todo : List Event) (last : Outcome)
  | finished
  deriving DecidableEq, Repr

/-- One move of the scheduler or of the operating system: a signal is delivered to the process,
the main goroutine takes a step, the handler goroutine takes a step (in its `select`, the case
`sig := <-sigs`), or the handler goroutine takes the case `<-ctx.Done()` of its `select`.
A delivery carries what the default action of the signal does to a process that has not asked
to be notified of it: `some status` when it ends the process, with that status (`SIGHUP` and
`SIGKILL` kill the process, on `SIGQUIT` the Go runtime exits with status 2), `none` when it
leaves the process running. `main.go` has no say in it, so it is part of the move. -/
inductive Choice
  | signal (sig : Nat) (dflt : Option Nat)
  | stepMain
  | stepHandler
  | stepHandlerCtx
  deriving DecidableEq, Repr

/-- The state of the process: what the main goroutine has still to do, where the handler
goroutine stands, the buffered channel `sigs`, whether `ctx` is cancelled, the exit status once
the process has ended, and the events so far. -/
structure Proc where
  mainTodo : List Event
  mainLast : Outcome
  handler : HandlerPc
  sigs : List Nat
  cancelled : Bool
  status : Option Nat
  trace : List Event
  deriving DecidableEq, Repr

/-- A goroutine performs the event `e`; `cancel()` cancels the context. -/
def Proc.emit (p : Proc) (e : Event) : Proc :=
  { p with trace := p.trace ++ [e], cancelled := p.cancelled || decide (e = Event.cancel) }

/-- Whether a move cannot end the process from outside: it is a step of a goroutine, the
delivery of one of the two signals `main` asks to be notified of, or the delivery of a signal
whose default action leaves the process running. -/
def Choice.benign : Choice → Bool
  | .signal sig dflt => decide (sig = Interrupt ∨ sig = SIGTERM) || dflt.isNone
  | _ => true

/-- One move. Nothing moves once the process has ended. `signal.Notify` relays only
`os.Interrupt` and `syscall.SIGTERM`, and drops a signal when the channel (capacity 2) is full;
any other signal takes its default action, which may end the process.
The main goroutine ends the process when it returns or panics; blocked on `ctx.Done()`, it
goes on with `mainStopped` once the context is cancelled. The handler goroutine ends the process
with `os.Exit`. -/
def Proc.step (p : Proc) (c : Choice) : Proc :=
  if p.status.isSome then p
  else
    match c with
    | .signal sig dflt =>
      if sig = Interrupt ∨ sig = SIGTERM then
        if p.sigs.length < 2 then { p with sigs := p.sigs ++ [sig] } else p
      else
        match dflt with
        | some status => { p with status := some status }
        | none => p
    | .stepMain =>
      match p.mainTodo with
      | e :: rest => { p.emit e with mainTodo := rest }
      | [] =>
        match p.mainLast with
        | .awaitsCancel =>
          if p.cancelled then
            { p with mainTodo := mainStopped.trace, mainLast := mainStopped.outcome }
          else p
        | o => { p with status := o.exitStatus }
    | .stepHandler =>
      match p.handler with
      | .atSelect =>
        match p.sigs with
        | sig :: rest =>
          { p.emit (.sigRecv sig) with
            sigs := rest
            handler := .running (handleSignals (.sig sig)).trace (handleSignals (.sig sig)).outcome }
        | [] => p
      | .running (e :: rest) last => { p.emit e with handler := .running rest last }
      | .running [] last =>
        match last with
        | .returned => { p with handler := .finished }
        | .awaitsCancel => p
        | o => { p with status := o.exitStatus }
      | .finished => p
    | .stepHandlerCtx =>
      match p.handler with
      | .atSelect =>
        if p.cancelled then
          { p with
            handler :=
              .running (handleSignals .ctxDone).trace (handleSignals .ctxDone).outcome }
        else p
      | _ => p

/-- The process once `main` has executed `signal.Notify(sigs, os.Interrupt, syscall.SIGTERM)` and
`go handleSignals(ctx, sigs, cancel)` (lines 23 and 24): the handler goroutine is in its
`select`, no signal is pending, the context is live, and `main` has all its events to perform. -/
def Proc.init (ParseUUID : String → bluetooth.UUID × Option String) (w : World) : Proc :=
  { mainTodo := (main ParseUUID w).trace
    mainLast := (main ParseUUID w).outcome
    handler := .atSelect
    sigs := []
    cancelled := false
    status := none
    trace := [] }

/-- The process after the moves of a schedule. -/
def Proc.run (p : Proc) (sched : List Choice) : Proc := sched.foldl Proc.step p

/-- Whether no adapter operation follows the log line `ble test started` in a trace; `seen`
tells whether the line has been seen already. -/
def noOpAfterStarted : Bool → List Event → Bool
  | _, [] => true
  | seen, e :: t =>
    if seen && e.isAdapterOp then false
    else noOpAfterStarted (seen || decide (e = Event.logInfo "ble test started")) t

/-- The log line `main` writes when startup has succeeded. -/
def started : Event := .logInfo "ble test started"

/-- An event that is neither an adapter operation nor the log line `ble test started`. -/
def Event.neutral (e : Event) : Prop := e.isAdapterOp = false ∧ e ≠ started

/-- What holds of the handler goroutine in every reachable state: the events it has still to
perform are neutral, and it ends by returning or by `os.Exit(0)`. -/
def HandlerPc.ok : HandlerPc → Prop
  | .running todo last => (∀ e ∈ todo, e.neutral) ∧ (last = .returned ∨ last = .exited 0)
  | _ => True

/-- What holds of every reachable state of the process, under every schedule: no adapter
operation follows `ble test started` in what has happened and what `main` has still to do; the
handler goroutine is as in `HandlerPc.ok`; `main` ends by returning, by blocking, or, only if it
never logs `ble test started`, by a panic. -/
structure Proc.Inv (p : Proc) : Prop where
  noOp : noOpAfterStarted false (p.trace ++ p.mainTodo) = true
  handler : p.handler.ok
  mainLast : p.mainLast = .returned ∨ p.mainLast = .awaitsCancel ∨
    ((∃ v, p.mainLast = .panicked v) ∧ started ∉ p.trace ++ p.mainTodo)

/-- What holds of the exit status in every state reached by benign moves: the process runs, or
has ended with status 0, or has ended with status 2 after a panic of `main`. -/
def Proc.statusOk (p : Proc) : Prop :=
  p.status = none ∨ p.status = some 0 ∨ (p.status = some 2 ∧ ∃ v, p.mainLast = .panicked v)

/-! ## Concrete worlds -/

/-- A host with a loopback interface (no hardware address) and one Ethernet interface with the
address `02:42:ac:11:00:02`, on which every adapter operation succeeds. -/
def dockerHost : World :=
  { interfaces := .ok [⟨[]⟩, ⟨[0x02, 0x42, 0xac, 0x11, 0x00, 0x02]⟩]
    enable := none
    addService := none
    configure := none
    start := none }

/-- A host whose only interface is the loopback interface. -/
def loopbackOnlyHost : World :=
  { interfaces := .ok [⟨[]⟩]
    enable := none
    addService := none
    configure := none
    start := none }

/-- A host whose only interface has the address `02:42:ac:00:2b:b9`, on which every adapter
operation succeeds. -/
def secondHost : World :=
  { interfaces := .ok [⟨[0x02, 0x42, 0xac, 0x00, 0x2b, 0xb9]⟩]
    enable := none
    addService := none
    configure := none
    start := none }

/-- The world of `dockerHost` with an adapter that refuses `Enable`. -/
def radioOffHost : World := { dockerHost with enable := some "adapter not found" }

/-- The service descriptor `main` registers when the identifier is parsed by the library. -/
def registeredService : bluetooth.Service :=
  { UUID := [0x303ad6d9, 0xb3d523c7, 0xd258587b, 0x57a66fdd], Characteristics := [] }

/-- The advertisement options `main` configures on `dockerHost`. -/
def dockerOptions : bluetooth.AdvertisementOptions :=
  { LocalName := "ApplianceMonitor - d5285d75"
    ServiceUUIDs := [[0x303ad6d9, 0xb3d523c7, 0xd258587b, 0x57a66fdd]] }

/-- A schedule in which `SIGINT` is received during startup: `main` calls `net.Interfaces` and
`Enable`, the signal is delivered and received, `main` calls `AddService`, and then the handler
logs, cancels and exits. -/
def raceSchedule : List Choice :=
  [.stepMain, .stepMain, .signal Interrupt none, .stepHandler, .stepMain,
   .stepHandler, .stepHandler, .stepHandler, .stepHandler]

/-- A schedule in which `SIGINT` is received after startup: `main` runs its seven startup events,
the signal is delivered and received, and the handler logs, cancels and exits. -/
def quietSchedule : List Choice :=
  List.replicate 7 .stepMain ++ [.signal Interrupt none] ++ List.replicate 5 .stepHandler

/-! # Theorems -/

set_option maxRecDepth 100000

/-! ## `mustGetMacAddr` -/

theorem string_mk_eq_empty (l : List Char) : (String.mk l = "") ↔ l = [] := by
  constructor
  · intro h
    have h2 := congrArg String.data h
    simpa using h2
  · intro h
    subst h
    rfl

theorem hardwareAddrString_eq_empty (a : List Nat) :
    net.HardwareAddrString a = "" ↔ a = [] := by
  unfold net.HardwareAddrString
  rw [string_mk_eq_empty]
  cases a with
  | nil => simp
  | cons b rest =>
    cases rest <;> simp [hexByte]

theorem firstMacAddr_all_empty (ifs : List net.Interface)
    (h : ∀ i ∈ ifs, i.HardwareAddr = []) : firstMacAddr ifs = .error "no MAC address found." := by
  induction ifs with
  | nil => rfl
  | cons x rest ih =>
    have hx : x.HardwareAddr = [] := h x (by simp)
    have hr : ∀ i ∈ rest, i.HardwareAddr = [] := fun i hi => h i (by simp [hi])
    simp [firstMacAddr, (hardwareAddrString_eq_empty _).2 hx, ih hr]

theorem firstMacAddr_first (ifs : List net.Interface)
    (h : ∃ i ∈ ifs, i.HardwareAddr ≠ []) :
    ∃ pre x post, ifs = pre ++ x :: post ∧ (∀ i ∈ pre, i.HardwareAddr = []) ∧
      x.HardwareAddr ≠ [] ∧ firstMacAddr ifs = .ok (net.HardwareAddrString x.HardwareAddr) := by
  induction ifs with
  | nil => simp at h
  | cons x rest ih =>
    by_cases hx : x.HardwareAddr = []
    · have hr : ∃ i ∈ rest, i.HardwareAddr ≠ [] := by
        obtain ⟨i, hi, hne⟩ := h
        rcases List.mem_cons.1 hi with rfl | hi
        · exact absurd hx hne
        · exact ⟨i, hi, hne⟩
      obtain ⟨pre, y, post, hsplit, hpre, hy, hres⟩ := ih hr
      refine ⟨x :: pre, y, post, by simp [hsplit], ?_, hy, ?_⟩
      · intro i hi
        rcases List.mem_cons.1 hi with rfl | hi
        · exact hx
        · exact hpre i hi
      · simp [firstMacAddr, (hardwareAddrString_eq_empty _).2 hx, hres]
    · refine ⟨[], x, rest, rfl, by simp, hx, ?_⟩
      have hne : net.HardwareAddrString x.HardwareAddr ≠ "" :=
        fun h2 => hx ((hardwareAddrString_eq_empty _).1 h2)
      simp [firstMacAddr, hne]

theorem firstMacAddr_ok_ne_empty (ifs : List net.Interface) (a : String)
    (h : firstMacAddr ifs = .ok a) : a ≠ "" := by
  induction ifs with
  | nil => simp [firstMacAddr] at h
  | cons x rest ih =>
    by_cases hx : net.HardwareAddrString x.HardwareAddr = ""
    · simp [firstMacAddr, hx] at h
      exact ih h
    · simp [firstMacAddr, hx] at h
      rw [← h]
      exact hx

/-- C4. `mustGetMacAddr`, as a function of the result of `net.Interfaces()`. If enumeration
succeeds with a list in which some interface has a non-empty hardware address, the result is the
string form of the hardware address of the first such interface: every interface before it has
an empty address. It panics if and only if enumeration returns an error or every interface of
the list (the empty list included) has an empty hardware address. A result is never the empty
string. -/
theorem mustGetMacAddr_spec (r : Except String (List net.Interface)) :
    (∀ ifs, r = .ok ifs → (∃ i ∈ ifs, i.HardwareAddr ≠ []) →
      ∃ pre x post, ifs = pre ++ x :: post ∧ (∀ i ∈ pre, i.HardwareAddr = []) ∧
        x.HardwareAddr ≠ [] ∧
        mustGetMacAddr r = .ok (net.HardwareAddrString x.HardwareAddr)) ∧
    ((∃ v, mustGetMacAddr r = .error v) ↔
      ((∃ err, r = .error err) ∨ ∃ ifs, r = .ok ifs ∧ ∀ i ∈ ifs, i.HardwareAddr = [])) ∧
    (∀ a, mustGetMacAddr r = .ok a → a ≠ "") := by
  refine ⟨?_, ?_, ?_⟩
  · intro ifs hr h
    subst hr
    exact firstMacAddr_first ifs h
  · cases r with
    | error err => simp [mustGetMacAddr]
    | ok ifs =>
      simp only [mustGetMacAddr]
      constructor
      · rintro ⟨v, hv⟩
        refine Or.inr ⟨ifs, rfl, ?_⟩
        by_contra hcon
        push_neg at hcon
        obtain ⟨pre, x, post, -, -, -, hres⟩ := firstMacAddr_first ifs hcon
        rw [hres] at hv
        cases hv
      · rintro (⟨err, he⟩ | ⟨ifs2, he, hall⟩)
        · cases he
        · cases he
          exact ⟨_, firstMacAddr_all_empty ifs hall⟩
  · intro a h
    cases r with
    | error err => simp [mustGetMacAddr] at h
    | ok ifs => exact firstMacAddr_ok_ne_empty ifs a h

/-- C4, witness: the interfaces of `dockerHost`, a loopback interface without hardware address
followed by an interface with the address `02:42:ac:11:00:02`. -/
theorem mustGetMacAddr_spec_witness :
    (∃ pre x post, [(⟨[]⟩ : net.Interface), ⟨[0x02, 0x42, 0xac, 0x11, 0x00, 0x02]⟩] = pre ++ x :: post ∧
      (∀ i ∈ pre, i.HardwareAddr = []) ∧ x.HardwareAddr ≠ [] ∧
      mustGetMacAddr (.ok [⟨[]⟩, ⟨[0x02, 0x42, 0xac, 0x11, 0x00, 0x02]⟩]) =
        .ok (net.HardwareAddrString x.HardwareAddr)) ∧
    mustGetMacAddr (.ok [⟨[]⟩, ⟨[0x02, 0x42, 0xac, 0x11, 0x00, 0x02]⟩]) = .ok "02:42:ac:11:00:02" ∧
    "02:42:ac:11:00:02" ≠ "" :=
  ⟨(mustGetMacAddr_spec (.ok [⟨[]⟩, ⟨[0x02, 0x42, 0xac, 0x11, 0x00, 0x02]⟩])).1 _ rfl
      ⟨⟨[0x02, 0x42, 0xac, 0x11, 0x00, 0x02]⟩, by simp, by simp⟩,
    rfl,
    (mustGetMacAddr_spec (.ok [⟨[]⟩, ⟨[0x02, 0x42, 0xac, 0x11, 0x00, 0x02]⟩])).2.2 _ rfl⟩

/-! ## The startup sequence of `main` -/

/-- The seven ways `main` can run, by the first step that fails. -/
theorem main_cases (P : String → bluetooth.UUID × Option String) (w : World) :
    (∃ v, stepFails w .identity = true ∧ main P w = ⟨[.netInterfaces], .panicked v⟩) ∨
    (∃ mac suf, mustGetMacAddr w.interfaces = .ok mac ∧ localNameSuffix mac = some suf ∧
      stepFails w .identity = false ∧
      ((∃ err, w.enable = some err ∧
          main P w = ⟨[.netInterfaces, .Enable, .logErr err "problem enabling adapter"],
            .returned⟩) ∨
        (∃ err, w.enable = none ∧ w.addService = some err ∧
          main P w = ⟨[.netInterfaces, .Enable,
            .AddService ⟨(P (uuid.String serviceUUID)).1, []⟩,
            .logErr err "problem adding service"], .returned⟩) ∨
        (∃ err, w.enable = none ∧ w.addService = none ∧ w.configure = some err ∧
          main P w = ⟨[.netInterfaces, .Enable,
            .AddService ⟨(P (uuid.String serviceUUID)).1, []⟩, .DefaultAdvertisement,
            .Configure ⟨"ApplianceMonitor - " ++ suf, [(P (uuid.String serviceUUID)).1]⟩,
            .logErr err "problem configuring advertiser"], .returned⟩) ∨
        (∃ err, w.enable = none ∧ w.addService = none ∧ w.configure = none ∧
          w.start = some err ∧
          main P w = ⟨[.netInterfaces, .Enable,
            .AddService ⟨(P (uuid.String serviceUUID)).1, []⟩, .DefaultAdvertisement,
            .Configure ⟨"ApplianceMonitor - " ++ suf, [(P (uuid.String serviceUUID)).1]⟩,
            .Start, .logErr err "problem starting advertiser"], .returned⟩) ∨
        (w.enable = none ∧ w.addService = none ∧ w.configure = none ∧ w.start = none ∧
          main P w = ⟨[.netInterfaces, .Enable,
            .AddService ⟨(P (uuid.String serviceUUID)).1, []⟩, .DefaultAdvertisement,
            .Configure ⟨"ApplianceMonitor - " ++ suf, [(P (uuid.String serviceUUID)).1]⟩,
            .Start, .logInfo "ble test started"], .awaitsCancel⟩))) := by
  cases hm : mustGetMacAddr w.interfaces with
  | error v => exact Or.inl ⟨v, by simp [stepFails, hm], by simp [main, hm]⟩
  | ok mac =>
    cases hl : localNameSuffix mac with
    | none =>
      exact Or.inl ⟨"slice bounds out of range", by simp [stepFails, hm, hl],
        by simp [main, hm, hl]⟩
    | some suf =>
      refine Or.inr ⟨mac, suf, rfl, hl, by simp [stepFails, hm, hl], ?_⟩
      cases he : w.enable with
      | some err => exact Or.inl ⟨err, rfl, by simp [main, hm, hl, he]⟩
      | none =>
        cases ha : w.addService with
        | some err => exact Or.inr (Or.inl ⟨err, rfl, rfl, by simp [main, hm, hl, he, ha]⟩)
        | none =>
          cases hc : w.configure with
          | some err =>
            exact Or.inr (Or.inr (Or.inl ⟨err, rfl, rfl, rfl, by simp [main, hm, hl, he, ha, hc]⟩))
          | none =>
            cases hs : w.start with
            | some err =>
              exact Or.inr (Or.inr (Or.inr (Or.inl
                ⟨err, rfl, rfl, rfl, rfl, by simp [main, hm, hl, he, ha, hc, hs]⟩)))
            | none =>
              exact Or.inr (Or.inr (Or.inr (Or.inr
                ⟨rfl, rfl, rfl, rfl, by simp [main, hm, hl, he, ha, hc, hs]⟩)))

theorem startupSequence_split (pre post : List Step) (s : Step)
    (h : startupSequence = pre ++ s :: post) :
    (pre = [] ∧ s = .identity) ∨ (pre = [.identity] ∧ s = .Enable) ∨
    (pre = [.identity, .Enable] ∧ s = .AddService) ∨
    (pre = [.identity, .Enable, .AddService] ∧ s = .Configure) ∨
    (pre = [.identity, .Enable, .AddService, .Configure] ∧ s = .Start) := by
  unfold startupSequence at h
  rcases pre with _ | ⟨a, _ | ⟨b, _ | ⟨c, _ | ⟨d, _ | ⟨e, _ | ⟨f, r⟩⟩⟩⟩⟩⟩ <;>
    simp at h <;> simp [h]

/-- C1 (fail-fast ordering). Split the startup sequence
`[identity derivation, Enable, AddService, Configure, Start]` at a step `s` that fails in the
world `w` while no step before it fails. Then the steps `main` attempts are exactly the steps up
to and including `s`, and `ble test started` is never logged; when `s` is identity derivation
no adapter operation at all is called, and when `s` is `Enable` none of `AddService`,
`Configure`, `Start` is called. -/
theorem startup_fail_fast (P : String → bluetooth.UUID × Option String) (w : World)
    (pre post : List Step) (s : Step) (hseq : startupSequence = pre ++ s :: post)
    (hpre : ∀ t ∈ pre, stepFails w t = false) (hs : stepFails w s = true) :
    attempted (main P w).trace = pre ++ [s] ∧
    Event.logInfo "ble test started" ∉ (main P w).trace ∧
    (s = .identity → ∀ e ∈ (main P w).trace, e.isAdapterOp = false) ∧
    (s = .Enable → ∀ e ∈ (main P w).trace,
      e.step? ≠ some .AddService ∧ e.step? ≠ some .Configure ∧ e.step? ≠ some .Start) := by
  rcases startupSequence_split pre post s hseq with
    ⟨rfl, rfl⟩ | ⟨rfl, rfl⟩ | ⟨rfl, rfl⟩ | ⟨rfl, rfl⟩ | ⟨rfl, rfl⟩ <;>
  rcases main_cases P w with ⟨v, hid, hmain⟩ |
    ⟨mac, suf, hmac, hsuf, hid, ⟨err, he, hmain⟩ | ⟨err, he, ha, hmain⟩ |
      ⟨err, he, ha, hc, hmain⟩ | ⟨err, he, ha, hc, hst, hmain⟩ | ⟨he, ha, hc, hst, hmain⟩⟩ <;>
  simp_all [attempted, Event.step?, Event.isAdapterOp, stepFails]

theorem main_dockerHost :
    main bluetooth.ParseUUID dockerHost =
      ⟨[.netInterfaces, .Enable, .AddService registeredService, .DefaultAdvertisement,
        .Configure dockerOptions, .Start, .logInfo "ble test started"], .awaitsCancel⟩ := by
  rfl

theorem stepFails_dockerHost : ∀ s ∈ startupSequence, stepFails dockerHost s = false := by
  intro s hs
  simp only [startupSequence, List.mem_cons, List.mem_singleton, List.not_mem_nil, or_false] at hs
  rcases hs with rfl | rfl | rfl | rfl | rfl <;> rfl

/-- C2 (amended). When no step fails, the run of `main` up to and including the log line
`ble test started` is `net.Interfaces`, then the adapter calls `Enable`, `AddService`,
`DefaultAdvertisement`, `Configure`, `Start`, in that order and nothing else, then the log line.
The fallible steps attempted are the whole startup sequence; there is exactly one `AddService`
call, its characteristics list is empty, and there is exactly one `Start` call. -/
theorem startup_success_calls (P : String → bluetooth.UUID × Option String) (w : World)
    (hok : ∀ s ∈ startupSequence, stepFails w s = false) :
    ∃ suf,
      (main P w).trace =
        [.netInterfaces, .Enable, .AddService ⟨(P (uuid.String serviceUUID)).1, []⟩,
          .DefaultAdvertisement,
          .Configure ⟨"ApplianceMonitor - " ++ suf, [(P (uuid.String serviceUUID)).1]⟩,
          .Start, .logInfo "ble test started"] ∧
      adapterCalls (main P w).trace =
        [.Enable, .AddService ⟨(P (uuid.String serviceUUID)).1, []⟩, .DefaultAdvertisement,
          .Configure ⟨"ApplianceMonitor - " ++ suf, [(P (uuid.String serviceUUID)).1]⟩,
          .Start] ∧
      attempted (main P w).trace = startupSequence ∧
      (main P w).trace.filter (fun e => decide (e.step? = some Step.AddService)) =
        [.AddService ⟨(P (uuid.String serviceUUID)).1, []⟩] ∧
      (main P w).trace.count .Start = 1 := by
  have h0 := hok .identity (by simp [startupSequence])
  have h1 := hok .Enable (by simp [startupSequence])
  have h2 := hok .AddService (by simp [startupSequence])
  have h3 := hok .Configure (by simp [startupSequence])
  have h4 := hok .Start (by simp [startupSequence])
  rcases main_cases P w with ⟨v, hid, hmain⟩ |
    ⟨mac, suf, hmac, hsuf, hid, ⟨err, he, hmain⟩ | ⟨err, he, ha, hmain⟩ |
      ⟨err, he, ha, hc, hmain⟩ | ⟨err, he, ha, hc, hst, hmain⟩ | ⟨he, ha, hc, hst, hmain⟩⟩
  · rw [hid] at h0; cases h0
  · simp [stepFails, he] at h1
  · simp [stepFails, ha] at h2
  · simp [stepFails, hc] at h3
  · simp [stepFails, hst] at h4
  · refine ⟨suf, ?_⟩
    rw [hmain]
    simp [adapterCalls, attempted, Event.isAdapterOp, Event.step?, startupSequence,
      List.filter, List.count_cons]

/-- C2 (amended), witness: `dockerHost`, on which no step fails. -/
theorem startup_success_calls_witness :
    (∀ s ∈ startupSequence, stepFails dockerHost s = false) ∧
    ∃ suf,
      (main bluetooth.ParseUUID dockerHost).trace =
        [.netInterfaces, .Enable,
          .AddService ⟨(bluetooth.ParseUUID (uuid.String serviceUUID)).1, []⟩,
          .DefaultAdvertisement,
          .Configure ⟨"ApplianceMonitor - " ++ suf,
            [(bluetooth.ParseUUID (uuid.String serviceUUID)).1]⟩,
          .Start, .logInfo "ble test started"] ∧
      adapterCalls (main bluetooth.ParseUUID dockerHost).trace =
        [.Enable, .AddService ⟨(bluetooth.ParseUUID (uuid.String serviceUUID)).1, []⟩,
          .DefaultAdvertisement,
          .Configure ⟨"ApplianceMonitor - " ++ suf,
            [(bluetooth.ParseUUID (uuid.String serviceUUID)).1]⟩,
          .Start] ∧
      attempted (main bluetooth.ParseUUID dockerHost).trace = startupSequence ∧
      (main bluetooth.ParseUUID dockerHost).trace.filter
          (fun e => decide (e.step? = some Step.AddService)) =
        [.AddService ⟨(bluetooth.ParseUUID (uuid.String serviceUUID)).1, []⟩] ∧
      (main bluetooth.ParseUUID dockerHost).trace.count .Start = 1 :=
  ⟨stepFails_dockerHost, startup_success_calls bluetooth.ParseUUID dockerHost stepFails_dockerHost⟩

/-- C2, counterexample. On `dockerHost` no step fails, and the calls the adapter has received
when `main` logs `ble test started` are the five calls `Enable`, `AddService`,
`DefaultAdvertisement`, `Configure`, `Start`: not the four calls `Enable`, `AddService`,
`Configure`, `Start`, whatever their arguments. -/
theorem startup_calls_not_four :
    (∀ s ∈ startupSequence, stepFails dockerHost s = false) ∧
    adapterCalls (main bluetooth.ParseUUID dockerHost).trace =
      [.Enable, .AddService registeredService, .DefaultAdvertisement, .Configure dockerOptions,
        .Start] ∧
    ¬ ∃ svc opts, adapterCalls (main bluetooth.ParseUUID dockerHost).trace =
      [.Enable, .AddService svc, .Configure opts, .Start] := by
  refine ⟨stepFails_dockerHost, ?_, ?_⟩
  · rw [main_dockerHost]; rfl
  · rw [main_dockerHost]
    rintro ⟨svc, opts, h⟩
    simp [adapterCalls, Event.isAdapterOp, List.filter] at h

/-- C1, witness: on `radioOffHost` identity derivation succeeds and `Enable` fails. -/
theorem startup_fail_fast_witness :
    startupSequence = [.identity] ++ Step.Enable :: [.AddService, .Configure, .Start] ∧
    (∀ t ∈ [Step.identity], stepFails radioOffHost t = false) ∧
    stepFails radioOffHost .Enable = true ∧
    attempted (main bluetooth.ParseUUID radioOffHost).trace = [.identity] ++ [.Enable] ∧
    Event.logInfo "ble test started" ∉ (main bluetooth.ParseUUID radioOffHost).trace ∧
    (Step.Enable = .identity →
      ∀ e ∈ (main bluetooth.ParseUUID radioOffHost).trace, e.isAdapterOp = false) ∧
    (Step.Enable = .Enable → ∀ e ∈ (main bluetooth.ParseUUID radioOffHost).trace,
      e.step? ≠ some .AddService ∧ e.step? ≠ some .Configure ∧ e.step? ≠ some .Start) :=
  ⟨rfl, by intro t ht; rw [List.mem_singleton.1 ht]; rfl, rfl,
    startup_fail_fast bluetooth.ParseUUID radioOffHost [.identity]
      [.AddService, .Configure, .Start] .Enable rfl
      (by intro t ht; rw [List.mem_singleton.1 ht]; rfl) rfl⟩

/-! ## Exit status and the discarded parse error -/

theorem stepFails_Enable (w : World) : stepFails w .Enable = w.enable.isSome := rfl

theorem stepFails_AddService (w : World) : stepFails w .AddService = w.addService.isSome := rfl

theorem stepFails_Configure (w : World) : stepFails w .Configure = w.configure.isSome := rfl

theorem stepFails_Start (w : World) : stepFails w .Start = w.start.isSome := rfl

/-- C7 (amended). When identity derivation succeeds and one of `Enable`, `AddService`,
`Configure`, `Start` fails, `main` returns normally, so the exit status is 0, the same as on
signal-driven shutdown, and the failure surfaces as exactly one log line, an error line. When
identity derivation fails, `main` panics instead: the exit status is 2, which differs from the
one of signal-driven shutdown, and no log line is written. -/
theorem startup_failure_exit (P : String → bluetooth.UUID × Option String) (w : World) :
    (stepFails w .identity = false →
      (∃ s ∈ [Step.Enable, Step.AddService, Step.Configure, Step.Start], stepFails w s = true) →
      (main P w).outcome = .returned ∧
      (main P w).outcome.exitStatus = some 0 ∧
      (main P w).outcome.exitStatus = (handleSignals (.sig Interrupt)).outcome.exitStatus ∧
      ∃ err msg, (main P w).trace.filter Event.isLog = [.logErr err msg]) ∧
    (stepFails w .identity = true →
      (∃ v, (main P w).outcome = .panicked v) ∧
      (main P w).outcome.exitStatus = some 2 ∧
      (main P w).outcome.exitStatus ≠ (handleSignals (.sig Interrupt)).outcome.exitStatus ∧
      ∀ e ∈ (main P w).trace, e.isLog = false) := by
  rcases main_cases P w with ⟨v, hid, hmain⟩ |
    ⟨mac, suf, hmac, hsuf, hid, ⟨err, he, hmain⟩ | ⟨err, he, ha, hmain⟩ |
      ⟨err, he, ha, hc, hmain⟩ | ⟨err, he, ha, hc, hst, hmain⟩ | ⟨he, ha, hc, hst, hmain⟩⟩ <;>
  simp_all [Outcome.exitStatus, handleSignals, Event.isLog, List.filter, stepFails_Enable,
    stepFails_AddService, stepFails_Configure, stepFails_Start]

/-- C7 (amended), witness: `radioOffHost`, where `Enable` fails, and `loopbackOnlyHost`, where
identity derivation fails. -/
theorem startup_failure_exit_witness :
    (stepFails radioOffHost .identity = false ∧
      (∃ s ∈ [Step.Enable, Step.AddService, Step.Configure, Step.Start],
        stepFails radioOffHost s = true) ∧
      (main bluetooth.ParseUUID radioOffHost).outcome = .returned ∧
      (main bluetooth.ParseUUID radioOffHost).outcome.exitStatus = some 0 ∧
      (main bluetooth.ParseUUID radioOffHost).outcome.exitStatus =
        (handleSignals (.sig Interrupt)).outcome.exitStatus ∧
      ∃ err msg, (main bluetooth.ParseUUID radioOffHost).trace.filter Event.isLog =
        [.logErr err msg]) ∧
    (stepFails loopbackOnlyHost .identity = true ∧
      (∃ v, (main bluetooth.ParseUUID loopbackOnlyHost).outcome = .panicked v) ∧
      (main bluetooth.ParseUUID loopbackOnlyHost).outcome.exitStatus = some 2 ∧
      (main bluetooth.ParseUUID loopbackOnlyHost).outcome.exitStatus ≠
        (handleSignals (.sig Interrupt)).outcome.exitStatus ∧
      ∀ e ∈ (main bluetooth.ParseUUID loopbackOnlyHost).trace, e.isLog = false) :=
  ⟨⟨rfl, ⟨.Enable, by simp, rfl⟩,
      (startup_failure_exit bluetooth.ParseUUID radioOffHost).1 rfl ⟨.Enable, by simp, rfl⟩⟩,
    ⟨rfl, (startup_failure_exit bluetooth.ParseUUID loopbackOnlyHost).2 rfl⟩⟩

/-- C7, counterexample. On `loopbackOnlyHost` identity derivation fails: `main` does not return
normally, it panics with `no MAC address found.`; the exit status is 2, not the 0 of
signal-driven shutdown, and no log line is written. -/
theorem identity_failure_not_exit_zero :
    stepFails loopbackOnlyHost .identity = true ∧
    (main bluetooth.ParseUUID loopbackOnlyHost) =
      ⟨[.netInterfaces], .panicked "no MAC address found."⟩ ∧
    (main bluetooth.ParseUUID loopbackOnlyHost).outcome ≠ .returned ∧
    (main bluetooth.ParseUUID loopbackOnlyHost).outcome.exitStatus = some 2 ∧
    (main bluetooth.ParseUUID loopbackOnlyHost).outcome.exitStatus ≠
      (handleSignals (.sig Interrupt)).outcome.exitStatus ∧
    (main bluetooth.ParseUUID loopbackOnlyHost).trace.filter Event.isLog = [] := by
  refine ⟨rfl, rfl, ?_, rfl, ?_, rfl⟩
  · intro h; cases h
  · intro h; cases h

/-- The library parser reports no error on the one string `main` parses, the canonical string
of the service identifier. -/
theorem serviceIdentifier_parses : (bluetooth.ParseUUID (uuid.String serviceUUID)).2 = none := by
  rfl

/-- The error result of `ParseUUID` plays no part in `main` (it is bound to `_`): two parsers
that return the same UUID value for the service identifier give the same run. -/
theorem main_parse_value_only (P Q : String → bluetooth.UUID × Option String) (w : World)
    (h : (P (uuid.String serviceUUID)).1 = (Q (uuid.String serviceUUID)).1) :
    main P w = main Q w := by
  simp only [main, h]

/-- C10, counterexample. In the branch `<-ctx.Done()` of its `select`, `handleSignals` does
nothing and returns: it neither calls `cancel` nor exits the process. -/
theorem ctxDone_branch_neither_cancels_nor_exits :
    handleSignals .ctxDone = ⟨[], .returned⟩ ∧
    Event.cancel ∉ (handleSignals .ctxDone).trace ∧
    (handleSignals .ctxDone).outcome ≠ .exited 0 := by
  refine ⟨rfl, by simp [handleSignals], ?_⟩
  intro h; cases h

/-- C10 (amended). Upon a signal, `handleSignals` calls `cancel` exactly once, as its last
action before `os.Exit(0)`, and ends the process with exit status 0. Upon cancellation of the
context (the branch `<-ctx.Done()`), it performs nothing and returns. -/
theorem handleSignals_branches (sig : Nat) :
    ((handleSignals (.sig sig)).trace.count .cancel = 1 ∧
      (handleSignals (.sig sig)).trace.getLast? = some .cancel ∧
      (handleSignals (.sig sig)).outcome = .exited 0 ∧
      (handleSignals (.sig sig)).outcome.exitStatus = some 0) ∧
    ((handleSignals .ctxDone).trace = [] ∧ (handleSignals .ctxDone).outcome = .returned) := by
  refine ⟨⟨?_, ?_, rfl, rfl⟩, rfl, rfl⟩
  · simp only [handleSignals]
    split_ifs <;> simp [List.count_cons]
  · simp only [handleSignals]
    split_ifs <;> simp

/-! ## The identifiers -/

theorem hexByte_nibbles : ∀ a : Fin 256,
    (hexByte a.val).map bluetooth.nibble = [some (a.val / 16), some (a.val % 16)] := by
  decide

theorem hexByte_isHexDigit : ∀ a : Fin 256, ∀ c ∈ hexByte a.val, isHexDigit c = true := by
  decide

theorem hexByte_length (v : Nat) : (hexByte v).length = 2 := rfl

theorem hexByte_inj (a b : Nat) (ha : a < 256) (hb : b < 256) (h : hexByte a = hexByte b) :
    a = b := by
  have h1 := hexByte_nibbles ⟨a, ha⟩
  have h2 := hexByte_nibbles ⟨b, hb⟩
  simp only [h] at h1
  rw [h1] at h2
  simp at h2
  omega

theorem hexEncode_cons (b : Nat) (l : List Nat) :
    hexEncode (b :: l) = hexByte b ++ hexEncode l := by
  simp [hexEncode]

theorem hexEncode_length (l : List Nat) : (hexEncode l).length = 2 * l.length := by
  induction l with
  | nil => rfl
  | cons b l ih => rw [hexEncode_cons, List.length_append, ih, hexByte_length, List.length_cons]; omega

theorem hexEncode_inj (l1 l2 : List Nat) (h1 : ∀ b ∈ l1, b < 256) (h2 : ∀ b ∈ l2, b < 256)
    (h : hexEncode l1 = hexEncode l2) : l1 = l2 := by
  induction l1 generalizing l2 with
  | nil =>
    cases l2 with
    | nil => rfl
    | cons b l =>
      have := congrArg List.length h
      rw [hexEncode_length, hexEncode_length] at this
      simp at this
  | cons a l1 ih =>
    cases l2 with
    | nil =>
      have := congrArg List.length h
      rw [hexEncode_length, hexEncode_length] at this
      simp at this
    | cons b l2 =>
      rw [hexEncode_cons, hexEncode_cons] at h
      obtain ⟨hab, hl⟩ := List.append_inj h (by simp [hexByte_length])
      have e1 : a = b := hexByte_inj a b (h1 a (by simp)) (h2 b (by simp)) hab
      have e2 : l1 = l2 :=
        ih l2 (fun x hx => h1 x (by simp [hx])) (fun x hx => h2 x (by simp [hx])) hl
      rw [e1, e2]

theorem hexEncode_isHexDigit (l : List Nat) (h : ∀ b ∈ l, b < 256) :
    ∀ c ∈ hexEncode l, isHexDigit c = true := by
  induction l with
  | nil => intro c hc; simp [hexEncode] at hc
  | cons b l ih =>
    intro c hc
    rw [hexEncode_cons, List.mem_append] at hc
    rcases hc with hc | hc
    · exact hexByte_isHexDigit ⟨b, h b (by simp)⟩ c hc
    · exact ih (fun x hx => h x (by simp [hx])) c hc

theorem NewHash_length (h : List Nat → List Nat) (space : uuid.UUID) (data : List Nat)
    (version : Nat) : (uuid.NewHash h space data version).length = 16 := by
  simp [uuid.NewHash]

theorem NewHash_lt (h : List Nat → List Nat) (space : uuid.UUID) (data : List Nat)
    (version : Nat) : ∀ b ∈ uuid.NewHash h space data version, b < 256 := by
  intro b hb
  unfold uuid.NewHash at hb
  rcases List.mem_or_eq_of_mem_set hb with hb | hb
  · rcases List.mem_or_eq_of_mem_set hb with hb | hb
    · rw [List.mem_map] at hb
      obtain ⟨i, -, rfl⟩ := hb
      exact Nat.mod_lt _ (by norm_num)
    · rw [hb]
      exact Nat.mod_lt _ (by norm_num)
  · rw [hb]
    exact Nat.or_lt_two_pow (n := 8) (Nat.and_lt_two_pow _ (n := 8) (by norm_num)) (by norm_num)

theorem uuidString_length (u : uuid.UUID) (hu : u.length = 16) :
    (uuid.String u).length = 36 := by
  simp only [uuid.String, String.length, List.length_append, hexEncode_length, List.length_take,
    List.length_drop, hu, List.length_cons, List.length_nil]
  rfl

theorem uuidString_take8 (u : uuid.UUID) (hu : u.length = 16) :
    (uuid.String u).data.take 8 = hexEncode (u.take 4) := by
  simp only [uuid.String, List.append_assoc]
  apply List.take_left'
  rw [hexEncode_length, List.length_take, hu]
  rfl

theorem localNameSuffix_eq (mac : String) :
    localNameSuffix mac = some ⟨hexEncode ((uuid.NewMD5 uuid.Nil (bytesOf mac)).take 4)⟩ := by
  have hl : (uuid.NewMD5 uuid.Nil (bytesOf mac)).length = 16 := NewHash_length _ _ _ _
  unfold localNameSuffix sliceTo
  rw [uuidString_length _ hl, uuidString_take8 _ hl]
  simp

/-- C3. For every hardware-address string `A`: the canonical string of the MD5 name-based UUID
of (nil namespace, bytes of `A`) has 36 characters, so the slice `[:8]` is in range; the device
identity is the first 8 characters of that string, has length 8 and consists of hexadecimal
digits only; and in every run of `main` in which identity derivation returns `A`, the
`LocalName` passed to `Configure` is `ApplianceMonitor - ` followed by the device identity
(`Configure` is reached as soon as `Enable` and `AddService` succeed). -/
theorem deviceIdentity_spec (A : String) :
    (uuid.String (uuid.NewMD5 uuid.Nil (bytesOf A))).length = 36 ∧
    ∃ d, localNameSuffix A = some d ∧
      d.data = (uuid.String (uuid.NewMD5 uuid.Nil (bytesOf A))).data.take 8 ∧
      d.length = 8 ∧
      (∀ c ∈ d.data, isHexDigit c = true) ∧
      ∀ (P : String → bluetooth.UUID × Option String) (w : World),
        mustGetMacAddr w.interfaces = .ok A →
        (∀ opts, Event.Configure opts ∈ (main P w).trace →
          opts.LocalName = "ApplianceMonitor - " ++ d) ∧
        (w.enable = none → w.addService = none →
          ∃ opts, Event.Configure opts ∈ (main P w).trace) := by
  have hl : (uuid.NewMD5 uuid.Nil (bytesOf A)).length = 16 := NewHash_length _ _ _ _
  refine ⟨uuidString_length _ hl, _, localNameSuffix_eq A, ?_, ?_, ?_, ?_⟩
  · exact (uuidString_take8 _ hl).symm
  · simp [String.length, hexEncode_length, hl]
  · exact hexEncode_isHexDigit _ (fun b hb => NewHash_lt _ _ _ _ b (List.mem_of_mem_take hb))
  · intro P w hA
    have hsufA := localNameSuffix_eq A
    rcases main_cases P w with ⟨v, hid, hmain⟩ |
      ⟨mac, suf, hmac, hsuf, hid, ⟨err, he, hmain⟩ | ⟨err, he, ha, hmain⟩ |
        ⟨err, he, ha, hc, hmain⟩ | ⟨err, he, ha, hc, hst, hmain⟩ | ⟨he, ha, hc, hst, hmain⟩⟩
    · simp [stepFails, hA, hsufA] at hid
    all_goals
      rw [hA] at hmac
      cases hmac
      rw [hsufA] at hsuf
      cases hsuf
      simp [hmain, he]
    all_goals simp [ha]

/-- C3, witness: the address `02:42:ac:11:00:02` of `dockerHost`, whose device identity is
`d5285d75`. -/
theorem deviceIdentity_spec_witness :
    mustGetMacAddr dockerHost.interfaces = .ok "02:42:ac:11:00:02" ∧
    localNameSuffix "02:42:ac:11:00:02" = some "d5285d75" ∧
    ∃ d, localNameSuffix "02:42:ac:11:00:02" = some d ∧ d.length = 8 ∧
      (∀ c ∈ d.data, isHexDigit c = true) ∧
      (∀ opts, Event.Configure opts ∈ (main bluetooth.ParseUUID dockerHost).trace →
        opts.LocalName = "ApplianceMonitor - " ++ d) ∧
      ∃ opts, Event.Configure opts ∈ (main bluetooth.ParseUUID dockerHost).trace := by
  obtain ⟨-, d, h1, -, h3, h4, h5⟩ := deviceIdentity_spec "02:42:ac:11:00:02"
  exact ⟨rfl, rfl, d, h1, h3, h4, (h5 bluetooth.ParseUUID dockerHost rfl).1,
    (h5 bluetooth.ParseUUID dockerHost rfl).2 rfl rfl⟩

theorem main_secondHost :
    main bluetooth.ParseUUID secondHost =
      ⟨[.netInterfaces, .Enable, .AddService registeredService, .DefaultAdvertisement,
        .Configure ⟨"ApplianceMonitor - 20b4473b", registeredService.UUID :: []⟩, .Start,
        .logInfo "ble test started"], .awaitsCancel⟩ := by
  rfl

/-- C6. In any two worlds, the service UUID `main` passes to `AddService` is the same value:
the parse of the canonical string of the SHA-1 name-based UUID of (SHA-1 name-based UUID of
(DNS namespace, `www.danesparza.net`), `ble-test`). The `ServiceUUIDs` passed to `Configure`
is the one-element list of that value. The canonical string is
`57a66fdd-d258-587b-b3d5-23c7303ad6d9`, which the library parser reads without error. -/
theorem serviceIdentifier_fixed (P : String → bluetooth.UUID × Option String) (w1 w2 : World) :
    (∀ svc1 svc2, Event.AddService svc1 ∈ (main P w1).trace →
      Event.AddService svc2 ∈ (main P w2).trace →
      svc1.UUID = svc2.UUID ∧
      svc1.UUID = (P (uuid.String (uuid.NewSHA1
        (uuid.NewSHA1 uuid.NameSpaceDNS (bytesOf "www.danesparza.net")) (bytesOf "ble-test")))).1) ∧
    (∀ opts, Event.Configure opts ∈ (main P w1).trace →
      opts.ServiceUUIDs = [(P (uuid.String (uuid.NewSHA1
        (uuid.NewSHA1 uuid.NameSpaceDNS (bytesOf "www.danesparza.net")) (bytesOf "ble-test")))).1]) ∧
    uuid.String (uuid.NewSHA1
        (uuid.NewSHA1 uuid.NameSpaceDNS (bytesOf "www.danesparza.net")) (bytesOf "ble-test")) =
      "57a66fdd-d258-587b-b3d5-23c7303ad6d9" ∧
    bluetooth.ParseUUID "57a66fdd-d258-587b-b3d5-23c7303ad6d9" =
      ([0x303ad6d9, 0xb3d523c7, 0xd258587b, 0x57a66fdd], none) := by
  have key : ∀ w svc, Event.AddService svc ∈ (main P w).trace →
      svc.UUID = (P (uuid.String serviceUUID)).1 := by
    intro w svc h
    rcases main_cases P w with ⟨v, hid, hmain⟩ |
      ⟨mac, suf, hmac, hsuf, hid, ⟨err, he, hmain⟩ | ⟨err, he, ha, hmain⟩ |
        ⟨err, he, ha, hc, hmain⟩ | ⟨err, he, ha, hc, hst, hmain⟩ | ⟨he, ha, hc, hst, hmain⟩⟩ <;>
    · rw [hmain] at h
      simp at h
      try rw [h]
  refine ⟨?_, ?_, rfl, rfl⟩
  · intro svc1 svc2 h1 h2
    have e1 := key w1 svc1 h1
    have e2 := key w2 svc2 h2
    exact ⟨e1.trans e2.symm, e1⟩
  · intro opts h
    rcases main_cases P w1 with ⟨v, hid, hmain⟩ |
      ⟨mac, suf, hmac, hsuf, hid, ⟨err, he, hmain⟩ | ⟨err, he, ha, hmain⟩ |
        ⟨err, he, ha, hc, hmain⟩ | ⟨err, he, ha, hc, hst, hmain⟩ | ⟨he, ha, hc, hst, hmain⟩⟩ <;>
    · rw [hmain] at h
      simp at h
      try (rw [h]; rfl)

/-- C6, witness: `dockerHost` and `secondHost`, two hosts with different hardware addresses. -/
theorem serviceIdentifier_fixed_witness :
    Event.AddService registeredService ∈ (main bluetooth.ParseUUID dockerHost).trace ∧
    Event.AddService registeredService ∈ (main bluetooth.ParseUUID secondHost).trace ∧
    Event.Configure dockerOptions ∈ (main bluetooth.ParseUUID dockerHost).trace ∧
    registeredService.UUID = (bluetooth.ParseUUID (uuid.String (uuid.NewSHA1
        (uuid.NewSHA1 uuid.NameSpaceDNS (bytesOf "www.danesparza.net")) (bytesOf "ble-test")))).1 ∧
    dockerOptions.ServiceUUIDs = [(bluetooth.ParseUUID (uuid.String (uuid.NewSHA1
        (uuid.NewSHA1 uuid.NameSpaceDNS (bytesOf "www.danesparza.net")) (bytesOf "ble-test")))).1] :=
  ⟨by rw [main_dockerHost]; simp, by rw [main_secondHost]; simp, by rw [main_dockerHost]; simp,
    ((serviceIdentifier_fixed bluetooth.ParseUUID dockerHost secondHost).1
      registeredService registeredService (by rw [main_dockerHost]; simp)
      (by rw [main_secondHost]; simp)).2,
    (serviceIdentifier_fixed bluetooth.ParseUUID dockerHost secondHost).2.1 dockerOptions
      (by rw [main_dockerHost]; simp)⟩

/-- The distinct hardware addresses `02:42:ac:00:2b:b9` and `02:42:ac:00:51:40` have the same
device identity, `20b4473b`: the device identity is not injective. -/
theorem deviceIdentity_collision :
    net.HardwareAddrString [0x02, 0x42, 0xac, 0x00, 0x2b, 0xb9] = "02:42:ac:00:2b:b9" ∧
    net.HardwareAddrString [0x02, 0x42, 0xac, 0x00, 0x51, 0x40] = "02:42:ac:00:51:40" ∧
    "02:42:ac:00:2b:b9" ≠ "02:42:ac:00:51:40" ∧
    localNameSuffix "02:42:ac:00:2b:b9" = some "20b4473b" ∧
    localNameSuffix "02:42:ac:00:51:40" = some "20b4473b" ∧
    ¬ ∀ A B : String, A ≠ B → localNameSuffix A ≠ localNameSuffix B := by
  have ha : localNameSuffix "02:42:ac:00:2b:b9" = some "20b4473b" := rfl
  have hb : localNameSuffix "02:42:ac:00:51:40" = some "20b4473b" := rfl
  refine ⟨rfl, rfl, by decide, ha, hb, ?_⟩
  intro h
  exact h "02:42:ac:00:2b:b9" "02:42:ac:00:51:40" (by decide) (ha.trans hb.symm)

/-- Two hardware-address strings have the same device identity exactly when the MD5 name-based
UUIDs of the two agree on their first four bytes: the identity keeps 32 bits of the hash. -/
theorem deviceIdentity_eq_iff (A B : String) :
    localNameSuffix A = localNameSuffix B ↔
      (uuid.NewMD5 uuid.Nil (bytesOf A)).take 4 = (uuid.NewMD5 uuid.Nil (bytesOf B)).take 4 := by
  rw [localNameSuffix_eq, localNameSuffix_eq]
  constructor
  · intro h
    have h2 : hexEncode ((uuid.NewMD5 uuid.Nil (bytesOf A)).take 4) =
        hexEncode ((uuid.NewMD5 uuid.Nil (bytesOf B)).take 4) :=
      congrArg String.data (Option.some.inj h)
    exact hexEncode_inj _ _
      (fun b hb => NewHash_lt _ _ _ _ b (List.mem_of_mem_take hb))
      (fun b hb => NewHash_lt _ _ _ _ b (List.mem_of_mem_take hb)) h2
  · intro h
    rw [h]

/-! ## The process -/

theorem noOp_of_append (b : Bool) (l r : List Event)
    (h : noOpAfterStarted b (l ++ r) = true) : noOpAfterStarted b l = true := by
  induction l generalizing b with
  | nil => rfl
  | cons e l ih =>
    simp only [List.cons_append, noOpAfterStarted] at h ⊢
    split_ifs at h ⊢ with hc
    exact ih _ h

theorem noOp_insert (b : Bool) (l r : List Event) (e : Event) (he : e.neutral) :
    noOpAfterStarted b (l ++ e :: r) = noOpAfterStarted b (l ++ r) := by
  induction l generalizing b with
  | nil =>
    have h1 : e.isAdapterOp = false := he.1
    have h2 : decide (e = Event.logInfo "ble test started") = false := by
      simpa [started] using he.2
    simp [noOpAfterStarted, h1, h2]
  | cons x l ih =>
    rw [List.cons_append, List.cons_append, noOpAfterStarted, noOpAfterStarted, ih]

theorem noOp_after (b : Bool) (l1 l2 : List Event)
    (h : noOpAfterStarted b (l1 ++ l2) = true) (hs : b = true ∨ started ∈ l1) :
    ∀ e ∈ l2, e.isAdapterOp = false := by
  induction l1 generalizing b with
  | nil =>
    have hb : b = true := by simpa using hs
    subst hb
    clear hs
    induction l2 with
    | nil => simp
    | cons x l2 ih =>
      simp only [List.nil_append, noOpAfterStarted, Bool.true_and, Bool.true_or] at h
      split_ifs at h with hx
      intro e he
      rcases List.mem_cons.1 he with rfl | he
      · simpa using hx
      · exact ih (by simpa using h) e he
  | cons x l1 ih =>
    simp only [List.cons_append, noOpAfterStarted] at h
    split_ifs at h with hx
    apply ih _ h
    rcases hs with hs | hs
    · simp [hs]
    · rcases List.mem_cons.1 hs with hs | hs
      · left
        simp [← hs, started]
      · exact Or.inr hs

theorem main_noOp (P : String → bluetooth.UUID × Option String) (w : World) :
    noOpAfterStarted false (main P w).trace = true := by
  rcases main_cases P w with ⟨v, hid, hmain⟩ |
    ⟨mac, suf, hmac, hsuf, hid, ⟨err, he, hmain⟩ | ⟨err, he, ha, hmain⟩ |
      ⟨err, he, ha, hc, hmain⟩ | ⟨err, he, ha, hc, hst, hmain⟩ | ⟨he, ha, hc, hst, hmain⟩⟩ <;>
  simp [hmain, noOpAfterStarted, Event.isAdapterOp]

theorem main_last (P : String → bluetooth.UUID × Option String) (w : World) :
    (main P w).outcome = .returned ∨ (main P w).outcome = .awaitsCancel ∨
      ((∃ v, (main P w).outcome = .panicked v) ∧ started ∉ (main P w).trace) := by
  rcases main_cases P w with ⟨v, hid, hmain⟩ |
    ⟨mac, suf, hmac, hsuf, hid, ⟨err, he, hmain⟩ | ⟨err, he, ha, hmain⟩ |
      ⟨err, he, ha, hc, hmain⟩ | ⟨err, he, ha, hc, hst, hmain⟩ | ⟨he, ha, hc, hst, hmain⟩⟩ <;>
  simp [hmain, started]

theorem handleSignals_neutral (c : SelectCase) :
    (∀ e ∈ (handleSignals c).trace, e.neutral) ∧
    ((handleSignals c).outcome = .returned ∨ (handleSignals c).outcome = .exited 0) := by
  cases c with
  | ctxDone => simp [handleSignals]
  | sig s =>
    refine ⟨?_, Or.inr rfl⟩
    intro e he
    simp only [handleSignals] at he
    split_ifs at he <;> simp at he <;> rcases he with rfl | rfl | rfl <;>
      simp [Event.neutral, Event.isAdapterOp, started]

theorem init_inv (P : String → bluetooth.UUID × Option String) (w : World) :
    (Proc.init P w).Inv := by
  refine ⟨?_, ?_, ?_⟩
  · simpa [Proc.init] using main_noOp P w
  · simp [Proc.init, HandlerPc.ok]
  · simpa [Proc.init] using main_last P w

theorem emit_neutral_inv (p : Proc) (e : Event) (he : e.neutral) (h : p.Inv) :
    noOpAfterStarted false ((p.emit e).trace ++ p.mainTodo) = true ∧
    (p.mainLast = .returned ∨ p.mainLast = .awaitsCancel ∨
      ((∃ v, p.mainLast = .panicked v) ∧ started ∉ (p.emit e).trace ++ p.mainTodo)) := by
  constructor
  · simp only [Proc.emit, List.append_assoc, List.singleton_append]
    rw [noOp_insert _ _ _ _ he]
    exact h.noOp
  · rcases h.mainLast with h1 | h1 | ⟨h1, h2⟩
    · exact Or.inl h1
    · exact Or.inr (Or.inl h1)
    · refine Or.inr (Or.inr ⟨h1, ?_⟩)
      simp only [Proc.emit, List.mem_append, List.mem_singleton] at h2 ⊢
      rintro ((h3 | h3) | h3)
      · exact h2 (Or.inl h3)
      · exact he.2 h3.symm
      · exact h2 (Or.inr h3)

/-- Every move, benign or not, keeps `Proc.Inv`. -/
theorem step_inv (p : Proc) (c : Choice) (h : p.Inv) : (p.step c).Inv := by
  unfold Proc.step
  by_cases hst : p.status.isSome
  · simpa [hst] using h
  simp only [hst, Bool.false_eq_true, if_false]
  cases c with
  | signal sig dflt =>
    dsimp only
    split_ifs
    · exact ⟨h.noOp, h.handler, h.mainLast⟩
    · exact h
    · cases dflt with
      | none => exact h
      | some status => exact ⟨h.noOp, h.handler, h.mainLast⟩
  | stepMain =>
    dsimp only
    cases htodo : p.mainTodo with
    | cons e rest =>
      dsimp only
      have h1 := h.noOp
      have h2 := h.mainLast
      rw [htodo] at h1 h2
      refine ⟨?_, h.handler, ?_⟩
      · simpa [Proc.emit] using h1
      · simpa [Proc.emit] using h2
    | nil =>
      dsimp only
      have h1 := h.noOp
      have h2 := h.mainLast
      rw [htodo] at h1 h2
      cases hlast : p.mainLast with
      | awaitsCancel =>
        dsimp only
        split_ifs
        · refine ⟨?_, h.handler, Or.inl rfl⟩
          have hn : (Event.logInfo "ble test stopped").neutral := by
            simp [Event.neutral, Event.isAdapterOp, started]
          have := noOp_insert false p.trace [] _ hn
          simpa [mainStopped, this] using h1
        · exact h
      | returned =>
        dsimp only
        exact ⟨by simpa [htodo] using h.noOp, h.handler, Or.inl rfl⟩
      | panicked v =>
        dsimp only
        exact ⟨by simpa [htodo] using h.noOp, h.handler, by simpa [htodo, hlast] using h2⟩
      | exited code =>
        rw [hlast] at h2
        simp at h2
  | stepHandler =>
    dsimp only
    cases hh : p.handler with
    | atSelect =>
      dsimp only
      cases hs : p.sigs with
      | nil => exact h
      | cons sig rest =>
        dsimp only
        have hn : (Event.sigRecv sig).neutral := by
          simp [Event.neutral, Event.isAdapterOp, started]
        obtain ⟨e1, e2⟩ := emit_neutral_inv p _ hn h
        exact ⟨e1, handleSignals_neutral (.sig sig), e2⟩
    | running todo last =>
      have hok := h.handler
      rw [hh] at hok
      cases todo with
      | cons e rest =>
        dsimp only
        have hn : e.neutral := hok.1 e (by simp)
        obtain ⟨e1, e2⟩ := emit_neutral_inv p _ hn h
        exact ⟨e1, ⟨fun x hx => hok.1 x (by simp [hx]), hok.2⟩, e2⟩
      | nil =>
        rcases hok.2 with hl | hl
        · subst hl
          exact ⟨h.noOp, trivial, h.mainLast⟩
        · subst hl
          exact ⟨h.noOp, hok, h.mainLast⟩
    | finished => exact h
  | stepHandlerCtx =>
    dsimp only
    cases hh : p.handler with
    | atSelect =>
      dsimp only
      split_ifs
      · exact ⟨h.noOp, handleSignals_neutral .ctxDone, h.mainLast⟩
      · exact h
    | running todo last => exact h
    | finished => exact h

theorem run_inv (p : Proc) (sched : List Choice) (h : p.Inv) : (p.run sched).Inv := by
  induction sched generalizing p with
  | nil => exact h
  | cons c sched ih => exact ih (p.step c) (step_inv p c h)

/-- A benign move keeps `Proc.statusOk`: the process can then end only by `main` returning or
panicking, or by the `os.Exit(0)` of the handler. -/
theorem step_statusOk (p : Proc) (c : Choice) (hc : c.benign = true) (h : p.Inv)
    (hs : p.statusOk) : (p.step c).statusOk := by
  unfold Proc.step
  by_cases hst : p.status.isSome
  · simpa [hst] using hs
  simp only [hst, Bool.false_eq_true, if_false]
  have hnone : p.status = none := by simpa using hst
  cases c with
  | signal sig dflt =>
    dsimp only
    split_ifs with h1 h2
    · exact Or.inl hnone
    · exact hs
    · cases dflt with
      | none => exact hs
      | some status => simp [Choice.benign, h1] at hc
  | stepMain =>
    dsimp only
    cases htodo : p.mainTodo with
    | cons e rest => exact Or.inl hnone
    | nil =>
      dsimp only
      cases hlast : p.mainLast with
      | awaitsCancel =>
        dsimp only
        split_ifs
        · exact Or.inl hnone
        · exact hs
      | returned => exact Or.inr (Or.inl rfl)
      | panicked v => exact Or.inr (Or.inr ⟨rfl, v, rfl⟩)
      | exited code =>
        have h2 := h.mainLast
        rw [hlast] at h2
        simp at h2
  | stepHandler =>
    dsimp only
    cases hh : p.handler with
    | atSelect =>
      dsimp only
      cases hsg : p.sigs with
      | nil => exact hs
      | cons sig rest => exact Or.inl hnone
    | running todo last =>
      have hok := h.handler
      rw [hh] at hok
      cases todo with
      | cons e rest => exact Or.inl hnone
      | nil =>
        rcases hok.2 with hl | hl
        · subst hl
          exact Or.inl hnone
        · subst hl
          exact Or.inr (Or.inl rfl)
    | finished => exact hs
  | stepHandlerCtx =>
    dsimp only
    cases hh : p.handler with
    | atSelect =>
      dsimp only
      split_ifs
      · exact Or.inl hnone
      · exact hs
    | running todo last => exact hs
    | finished => exact hs

theorem run_statusOk (p : Proc) (sched : List Choice) (hc : ∀ c ∈ sched, c.benign = true)
    (h : p.Inv) (hs : p.statusOk) : (p.run sched).statusOk := by
  induction sched generalizing p with
  | nil => exact hs
  | cons c sched ih =>
    exact ih (p.step c) (fun x hx => hc x (List.mem_cons_of_mem _ hx)) (step_inv p c h)
      (step_statusOk p c (hc c (List.mem_cons_self _ _)) h hs)

theorem handler_exits (todo : List Event) (p : Proc) (hs : p.status = none)
    (hh : p.handler = .running todo (.exited 0)) :
    (p.run (List.replicate (todo.length + 1) .stepHandler)).status = some 0 := by
  induction todo generalizing p with
  | nil =>
    simp [Proc.run, Proc.step, hs, hh, Outcome.exitStatus]
  | cons e rest ih =>
    have hstep : (p.step .stepHandler).status = none ∧
        (p.step .stepHandler).handler = .running rest (.exited 0) := by
      simp [Proc.step, hs, hh, Proc.emit]
    have := ih (p.step .stepHandler) hstep.1 hstep.2
    simpa [Proc.run, List.replicate_succ] using this

/-- C5 (amended). For a signal `sig` that is `SIGINT` or `SIGTERM`, `handleSignals` logs the
class of `sig`, then logs `Shutting down ...`, then calls `cancel`, exactly once, then ends the
process with `os.Exit(0)`, and calls no adapter operation itself. In every schedule of the
process, whatever other signals are delivered, if the signal is received after `main` has logged
`ble test started`, then no adapter operation is invoked from the moment of receipt; if moreover
no move of the schedule ends the process by the default action of a signal that is not relayed,
the exit status, if any, is 0. Once the handler goroutine has received the signal, scheduling it
for each of its remaining actions ends the process with exit status 0. -/
theorem signal_shutdown (P : String → bluetooth.UUID × Option String) (w : World)
    (sched : List Choice) (sig : Nat) (hsig : sig = Interrupt ∨ sig = SIGTERM) :
    handleSignals (.sig sig) =
      ⟨[.logInfo (if sig = Interrupt then "SIGINT" else "SIGTERM"),
        .logInfo "Shutting down ...", .cancel], .exited 0⟩ ∧
    (handleSignals (.sig sig)).outcome.exitStatus = some 0 ∧
    (handleSignals (.sig sig)).trace.count .cancel = 1 ∧
    (∀ e ∈ (handleSignals (.sig sig)).trace, e.isAdapterOp = false) ∧
    (∀ l1 l2, ((Proc.init P w).run sched).trace = l1 ++ .sigRecv sig :: l2 →
      Event.logInfo "ble test started" ∈ l1 →
      (∀ e ∈ l2, e.isAdapterOp = false) ∧
      ((∀ c ∈ sched, c.benign = true) →
        ((Proc.init P w).run sched).status = none ∨
          ((Proc.init P w).run sched).status = some 0)) ∧
    (∀ (p : Proc) (todo : List Event), p.status = none →
      p.handler = .running todo (.exited 0) →
      (p.run (List.replicate (todo.length + 1) .stepHandler)).status = some 0) := by
  refine ⟨?_, rfl, ?_, ?_, ?_, fun p todo hs hh => handler_exits todo p hs hh⟩
  · rcases hsig with rfl | rfl <;> rfl
  · rcases hsig with rfl | rfl <;> rfl
  · rcases hsig with rfl | rfl <;> simp [handleSignals, Interrupt, SIGTERM, Event.isAdapterOp]
  · intro l1 l2 ht hs
    have hinv := run_inv _ sched (init_inv P w)
    have h1 := noOp_of_append _ _ _ hinv.noOp
    rw [ht] at h1
    have hmem : started ∈ ((Proc.init P w).run sched).trace := by
      rw [ht]
      exact List.mem_append_left _ hs
    refine ⟨fun e he => noOp_after false l1 (Event.sigRecv sig :: l2) h1 (Or.inr hs) e
      (List.mem_cons_of_mem _ he), ?_⟩
    intro hben
    have hstat := run_statusOk _ sched hben (init_inv P w) (Or.inl rfl)
    rcases hstat with h0 | h0 | ⟨-, v, hv⟩
    · exact Or.inl h0
    · exact Or.inr h0
    · rcases hinv.mainLast with h2 | h2 | ⟨-, h3⟩
      · rw [hv] at h2; cases h2
      · rw [hv] at h2; cases h2
      · exact absurd (List.mem_append_left _ hmem) h3

theorem run_quietSchedule :
    (Proc.init bluetooth.ParseUUID dockerHost).run quietSchedule =
      { mainTodo := []
        mainLast := .awaitsCancel
        handler := .running [] (.exited 0)
        sigs := []
        cancelled := true
        status := some 0
        trace := [.netInterfaces, .Enable, .AddService registeredService, .DefaultAdvertisement,
          .Configure dockerOptions, .Start, .logInfo "ble test started"] ++
          .sigRecv Interrupt :: [.logInfo "SIGINT", .logInfo "Shutting down ...", .cancel] } := by
  rfl

theorem run_raceSchedule :
    (Proc.init bluetooth.ParseUUID dockerHost).run raceSchedule =
      { mainTodo := [.DefaultAdvertisement, .Configure dockerOptions, .Start,
          .logInfo "ble test started"]
        mainLast := .awaitsCancel
        handler := .running [] (.exited 0)
        sigs := []
        cancelled := true
        status := some 0
        trace := [.netInterfaces, .Enable] ++
          .sigRecv Interrupt :: [.AddService registeredService, .logInfo "SIGINT",
            .logInfo "Shutting down ...", .cancel] } := by
  rfl

/-- A signal that is not relayed ends the process by its default action, whatever the
goroutines were doing: `SIGQUIT` delivered after the handler has received `SIGINT` ends the
process with the status of its default action, not with the 0 of `os.Exit(0)`. -/
theorem run_quit_after_receipt :
    ((Proc.init bluetooth.ParseUUID dockerHost).run
      (List.replicate 7 .stepMain ++ [.signal Interrupt none, .stepHandler, .signal 3 (some 2)]
        ++ List.replicate 4 .stepHandler)).status = some 2 := by
  rfl

/-- C5 (amended), witness: `SIGINT` on `dockerHost` under `quietSchedule`, all of whose moves are
benign. -/
theorem signal_shutdown_witness :
    (Interrupt = Interrupt ∨ Interrupt = SIGTERM) ∧
    ((Proc.init bluetooth.ParseUUID dockerHost).run quietSchedule).trace =
      [.netInterfaces, .Enable, .AddService registeredService, .DefaultAdvertisement,
        .Configure dockerOptions, .Start, .logInfo "ble test started"] ++
        .sigRecv Interrupt :: [.logInfo "SIGINT", .logInfo "Shutting down ...", .cancel] ∧
    Event.logInfo "ble test started" ∈
      [.netInterfaces, .Enable, .AddService registeredService, .DefaultAdvertisement,
        .Configure dockerOptions, .Start, .logInfo "ble test started"] ∧
    (∀ c ∈ quietSchedule, c.benign = true) ∧
    (∀ e ∈ [Event.logInfo "SIGINT", .logInfo "Shutting down ...", .cancel],
      e.isAdapterOp = false) ∧
    (((Proc.init bluetooth.ParseUUID dockerHost).run quietSchedule).status = none ∨
      ((Proc.init bluetooth.ParseUUID dockerHost).run quietSchedule).status = some 0) ∧
    ((Proc.init bluetooth.ParseUUID dockerHost).run quietSchedule).status = some 0 :=
  ⟨Or.inl rfl, by rw [run_quietSchedule], by simp, by decide,
    ((signal_shutdown bluetooth.ParseUUID dockerHost quietSchedule Interrupt
      (Or.inl rfl)).2.2.2.2.1 _ _ (by rw [run_quietSchedule]) (by simp)).1,
    ((signal_shutdown bluetooth.ParseUUID dockerHost quietSchedule Interrupt
      (Or.inl rfl)).2.2.2.2.1 _ _ (by rw [run_quietSchedule]) (by simp)).2 (by decide),
    by rw [run_quietSchedule]⟩

/-- C5, counterexample. On `dockerHost` under `raceSchedule`, `SIGINT` is delivered while the
context is not cancelled and is received after `main` has called `Enable`; `main` then calls
`AddService`, after the receipt, before the handler exits the process. -/
theorem signal_during_startup_race :
    ((Proc.init bluetooth.ParseUUID dockerHost).run (raceSchedule.take 3)).cancelled = false ∧
    ((Proc.init bluetooth.ParseUUID dockerHost).run (raceSchedule.take 3)).sigs = [Interrupt] ∧
    ((Proc.init bluetooth.ParseUUID dockerHost).run raceSchedule).trace =
      [.netInterfaces, .Enable] ++
        .sigRecv Interrupt :: [.AddService registeredService, .logInfo "SIGINT",
          .logInfo "Shutting down ...", .cancel] ∧
    ((Proc.init bluetooth.ParseUUID dockerHost).run raceSchedule).status = some 0 ∧
    ¬ ∀ l1 l2, ((Proc.init bluetooth.ParseUUID dockerHost).run raceSchedule).trace =
        l1 ++ .sigRecv Interrupt :: l2 → ∀ e ∈ l2, e.isAdapterOp = false := by
  refine ⟨rfl, rfl, by rw [run_raceSchedule], by rw [run_raceSchedule], ?_⟩
  intro h
  have h2 := h [.netInterfaces, .Enable] [.AddService registeredService, .logInfo "SIGINT",
    .logInfo "Shutting down ...", .cancel] (by rw [run_raceSchedule])
    (.AddService registeredService) (by simp)
  simp [Event.isAdapterOp] at h2

end BleTest
